import Mathlib

/-!
# Verification of the PKM core (pkmStore.ts / pkmStorage.ts / types/pkm.ts)

Shallow embedding of the personal-knowledge-management core of the repository.
JavaScript numbers are modelled as exact rationals (`Rat`) where fractional
arithmetic occurs, and as integers (`Int`/`Nat`) for fields that are only ever
assigned integral values.  JavaScript `Date` objects and JSON date strings are
modelled by the sum type `DateVal`: every `new Date(...)` value is `DateVal.date ms`
(epoch milliseconds) and every string obtained by JSON-serialising a date is
`DateVal.str s`.  All `Date.now()` / `new Date()` calls inside a single store
operation are modelled by one timestamp parameter; no claim depends on their
distinctness.  Randomly generated ids are passed as explicit parameters.
-/

namespace PKM

/-- JS `Date` object (`date ms`, epoch milliseconds) versus the ISO string a
date becomes after `JSON.stringify`/`JSON.parse` (`str s`). -/
inductive DateVal where
  | date (ms : Int)
  | str (s : String)
deriving DecidableEq, Repr

/-- `NoteType` union from types/pkm.ts. -/
inductive NoteType where
  | concept | fact | question | insight | task | reference | journal
deriving DecidableEq, Repr

/-- `LinkType` union from types/pkm.ts. -/
inductive LinkType where
  | related | prerequisite | follows | contradicts | expands | references
deriving DecidableEq, Repr

/-- `ReviewStatus` union from types/pkm.ts.  `new` is a Lean keyword-ish name;
we call the first constructor `fresh` (source string literal `'new'`). -/
inductive ReviewStatus where
  | fresh | learning | reviewing | mastered
deriving DecidableEq, Repr

/-- Review quality grade accepted by `reviewNote`. -/
inductive Quality where
  | again | hard | good | easy
deriving DecidableEq, Repr

/-- `ReviewData` from types/pkm.ts.  `easeFactor` is a float in the source,
modelled as an exact rational; `interval` is only ever assigned integral
values (initial 1, `Math.floor` results, and `max` of those), so `Int`. -/
structure ReviewData where
  status : ReviewStatus
  easeFactor : Rat
  interval : Int
  nextReview : DateVal
  reviewCount : Nat
  lastReviewed : Option DateVal
  correctStreak : Nat
  totalReviews : Nat
deriving DecidableEq, Repr

/-- `NoteMetadata` from types/pkm.ts. -/
structure NoteMetadata where
  wordCount : Nat
  readingTime : Nat
  links : List String
  backlinks : List String
  attachments : List String
  importance : Nat
deriving DecidableEq, Repr

/-- Spatial placement `{ x, y, room }` from the `Note` interface. -/
structure Position where
  x : Rat
  y : Rat
  room : String
deriving DecidableEq, Repr

/-- `Note` from types/pkm.ts.  `domain` is a closed string union in the
source; it is modelled as its literal string. -/
structure Note where
  id : String
  title : String
  content : String
  type : NoteType
  domain : String
  tags : List String
  createdAt : DateVal
  updatedAt : DateVal
  position : Position
  isCollected : Bool
  reviewData : ReviewData
  metadata : NoteMetadata
deriving DecidableEq, Repr

/-- `NoteLink` from types/pkm.ts. -/
structure NoteLink where
  id : String
  sourceId : String
  targetId : String
  type : LinkType
  strength : Nat
  createdAt : DateVal
  context : Option String
deriving DecidableEq, Repr

/-- `Tag` from types/pkm.ts. -/
structure Tag where
  id : String
  name : String
  color : String
  description : Option String
  noteCount : Nat
  createdAt : DateVal
deriving DecidableEq, Repr

/-- `ActivityItem` from types/pkm.ts; the `type` union is modelled as its
literal string. -/
structure ActivityItem where
  id : String
  type : String
  timestamp : DateVal
  description : String
  points : Option Nat
deriving DecidableEq, Repr

/-- `PKMStats` from types/pkm.ts. -/
structure PKMStats where
  totalNotes : Int
  collectedNotes : Int
  totalLinks : Int
  reviewStreak : Int
  wisdomPoints : Int
  completedQuests : Int
  averageReviewAccuracy : Rat
  mostProductiveDomain : String
  recentActivity : List ActivityItem
deriving DecidableEq, Repr

/-- `PKMSettings` from types/pkm.ts. -/
structure PKMSettings where
  autoSave : Bool
  defaultDomain : String
  reviewReminders : Bool
  dailyReviewGoal : Nat
  theme : String
  soundEffects : Bool
  showBacklinks : Bool
  autoLinkSimilar : Bool
deriving DecidableEq, Repr

/- Spaced-repetition constants (`SPACED_REPETITION` in types/pkm.ts),
rendered as exact rationals. -/
namespace SPACED_REPETITION

def INITIAL_EASE : Rat := 2.5
def MIN_EASE : Rat := 1.3
def MAX_EASE : Rat := 3.0
def EASY_MULTIPLIER : Rat := 1.3
def GOOD_MULTIPLIER : Rat := 1.0
def HARD_MULTIPLIER : Rat := 0.8
def AGAIN_MULTIPLIER : Rat := 0.5
def INITIAL_INTERVAL : Int := 1
def GRADUATING_INTERVAL : Int := 4

end SPACED_REPETITION

/-- `defaultStats` from pkmStore.ts. -/
def defaultStats : PKMStats :=
  { totalNotes := 0, collectedNotes := 0, totalLinks := 0, reviewStreak := 0,
    wisdomPoints := 0, completedQuests := 0, averageReviewAccuracy := 0,
    mostProductiveDomain := "personal", recentActivity := [] }

/-- `defaultSettings` from pkmStore.ts. -/
def defaultSettings : PKMSettings :=
  { autoSave := true, defaultDomain := "personal", reviewReminders := true,
    dailyReviewGoal := 10, theme := "retro_snes", soundEffects := true,
    showBacklinks := true, autoLinkSimilar := false }

/-- Observable state of the zustand PKM store (the durable IndexedDB
collections mirror these lists record-for-record; quests and rooms carry no
claim and are omitted). -/
structure PKMState where
  notes : List Note
  links : List NoteLink
  tags : List Tag
  stats : PKMStats
  settings : PKMSettings
deriving DecidableEq, Repr

/-- The JS `\s` character class restricted to the escapes the repository's
content can contain (space, tab, line feed, carriage return, vertical tab,
form feed). -/
def jsWhitespace (c : Char) : Bool :=
  c == ' ' || c == '\t' || c == '\n' || c == '\r' || c == '\x0b' || c == '\x0c'

/-- JS `String.prototype.split` with a single-character separator test:
splits at every separator character, keeping empty fragments (so
`"a  b".split(' ')` gives `["a", "", "b"]` and `"".split(' ')` gives
`[""]`). -/
def jsSplit (sep : Char → Bool) : List Char → List (List Char)
  | [] => [[]]
  | c :: rest =>
    let r := jsSplit sep rest
    if sep c then [] :: r
    else
      match r with
      | [] => [[c]]
      | h :: t => (c :: h) :: t

/-- `content.split(/\s+/).filter(word => word.length > 0).length` from
pkmStore.ts: number of non-empty whitespace-delimited tokens (splitting at
each whitespace character and at whitespace runs agree once empty
fragments are dropped). -/
def countWords (s : String) : Nat :=
  ((jsSplit jsWhitespace s.toList).filter fun w => w ≠ []).length

/-- JS `String.prototype.trim`: strip leading and trailing whitespace. -/
def jsTrim (cs : List Char) : List Char :=
  ((cs.dropWhile jsWhitespace).reverse.dropWhile jsWhitespace).reverse

/-- JS `String.prototype.toLowerCase`, character-wise (the repository's
strings are ASCII, where `Char.toLower` agrees with JS). -/
def lowerChars (s : String) : List Char :=
  s.toList.map Char.toLower

/-- `Math.ceil(content.length / 200)` from pkmStore.ts (reading-time
estimate); ceiling division on the string length. -/
def readingTimeOf (s : String) : Nat :=
  (s.length + 199) / 200

/-- JS `a || b` on an optional string: `b` when `a` is absent or empty
(the empty string is falsy). -/
def jsOrStr (o : Option String) (d : String) : String :=
  match o with
  | some s => if s ≠ "" then s else d
  | none => d

/-- `Partial<Note>` argument of `updateNote`/`createNote` in pkmStore.ts.
Fields the repository never places in an update (`id`, `createdAt`,
`updatedAt`) are omitted; every included field is merged by the
`{ ...old, ...updates, ... }` spread exactly as in the source. -/
structure NoteUpdates where
  title : Option String := none
  content : Option String := none
  type : Option NoteType := none
  domain : Option String := none
  tags : Option (List String) := none
  position : Option Position := none
  isCollected : Option Bool := none
  reviewData : Option ReviewData := none
  metadata : Option NoteMetadata := none
deriving Repr

/-- Body of `updateNote` in pkmStore.ts building `updatedNote`:
`{ ...old, ...updates, updatedAt: new Date(), metadata: { ...old.metadata,
wordCount: updates.content ? <recount> : old, readingTime: updates.content ?
<recompute> : old } }`.  Two source behaviours are preserved exactly:
(1) the `metadata:` key of the object literal comes after `...updates`, so a
`metadata` field inside `updates` is discarded and the metadata is rebuilt
from the old note; (2) `updates.content ? ... : ...` is a JS truthiness
test, so a provided empty-string content does not trigger recomputation. -/
def applyUpdates (old : Note) (u : NoteUpdates) (now : Int) : Note :=
  { id := old.id
    title := u.title.getD old.title
    content := u.content.getD old.content
    type := u.type.getD old.type
    domain := u.domain.getD old.domain
    tags := u.tags.getD old.tags
    createdAt := old.createdAt
    updatedAt := DateVal.date now
    position := u.position.getD old.position
    isCollected := u.isCollected.getD old.isCollected
    reviewData := u.reviewData.getD old.reviewData
    metadata :=
      { old.metadata with
        wordCount :=
          match u.content with
          | some c => if c ≠ "" then countWords c else old.metadata.wordCount
          | none => old.metadata.wordCount
        readingTime :=
          match u.content with
          | some c => if c ≠ "" then readingTimeOf c else old.metadata.readingTime
          | none => old.metadata.readingTime } }

/-- `updateNote` in pkmStore.ts: find the note by id (`findIndex`; silent
return when absent), build `updatedNote` via `applyUpdates`, and replace it
in the list (`notes.map(note => note.id === id ? updatedNote : note)`).
Stats are not touched. -/
def storeUpdateNote (s : PKMState) (id : String) (u : NoteUpdates) (now : Int) : PKMState :=
  match s.notes.find? (fun n => n.id == id) with
  | none => s
  | some old =>
    { s with notes := s.notes.map fun n => if n.id == id then applyUpdates old u now else n }

/-- `deleteNote` in pkmStore.ts: unconditionally filters the note and every
link whose source **or** target equals the id out of the in-memory
collections (the IndexedDB layer scans both the `source` and `target`
indexes with the same effect), then decrements `totalNotes` floored at 0.
There is no existence check, and `totalLinks` is not adjusted. -/
def storeDeleteNote (s : PKMState) (id : String) : PKMState :=
  { s with
    notes := s.notes.filter fun n => n.id ≠ id
    links := s.links.filter fun l => l.sourceId ≠ id ∧ l.targetId ≠ id
    stats := { s.stats with totalNotes := max 0 (s.stats.totalNotes - 1) } }

/-- `pkmStorage.deleteNote`'s link cascade: one pass deleting every link
returned by the `source` index for the id, then one pass for the `target`
index. -/
def storageDeleteNoteLinks (links : List NoteLink) (id : String) : List NoteLink :=
  (links.filter fun l => l.sourceId ≠ id).filter fun l => l.targetId ≠ id

/-- `collectNote` in pkmStore.ts: no-op when the note is absent or already
collected; otherwise sets `isCollected` on that note (no other note field
changes) and adds 1 collected note and 5 wisdom points to the stats. -/
def storeCollectNote (s : PKMState) (id : String) : PKMState :=
  match s.notes.find? (fun n => n.id == id) with
  | none => s
  | some note =>
    if note.isCollected then s
    else
      { s with
        notes := s.notes.map fun n =>
          if n.id == id then { note with isCollected := true } else n
        stats := { s.stats with
          collectedNotes := s.stats.collectedNotes + 1
          wisdomPoints := s.stats.wisdomPoints + 5 } }

/-- `updateTag` in pkmStore.ts: silent return when the id is absent,
otherwise spread-merge and replace.  Only the fields a caller can update
through `Partial<Tag>` that matter to the claims are carried (name, color);
the merge shape is the same for the rest. -/
structure TagUpdates where
  name : Option String := none
  color : Option String := none
deriving Repr

def storeUpdateTag (s : PKMState) (id : String) (u : TagUpdates) : PKMState :=
  match s.tags.find? (fun t => t.id == id) with
  | none => s
  | some old =>
    let updated : Tag := { old with name := u.name.getD old.name, color := u.color.getD old.color }
    { s with tags := s.tags.map fun t => if t.id == id then updated else t }

/-- `createLink` in pkmStore.ts: append the new link (strength 5), then try
to register the forward link on the source note and the backlink on the
target note via `updateNote` — whose metadata rebuild discards both
updates — then increment `totalLinks`.  `newId` stands for the generated
`link_${Date.now()}_${random}` id. -/
def storeCreateLink (s : PKMState) (sourceId targetId : String) (type : LinkType)
    (context : Option String) (newId : String) (now : Int) : PKMState :=
  let link : NoteLink :=
    { id := newId, sourceId := sourceId, targetId := targetId, type := type,
      strength := 5, createdAt := DateVal.date now, context := context }
  let s1 : PKMState := { s with links := s.links ++ [link] }
  -- `const state = get()` after the set: both endpoint notes are looked up in s1
  let sourceNote := s1.notes.find? fun n => n.id == sourceId
  let targetNote := s1.notes.find? fun n => n.id == targetId
  let s2 :=
    match sourceNote with
    | some sn =>
      storeUpdateNote s1 sourceId
        { metadata := some { sn.metadata with
            links := (sn.metadata.links.filter fun l => l ≠ targetId) ++ [targetId] } } now
    | none => s1
  let s3 :=
    match targetNote with
    | some tn =>
      storeUpdateNote s2 targetId
        { metadata := some { tn.metadata with
            backlinks := (tn.metadata.backlinks.filter fun l => l ≠ sourceId) ++ [sourceId] } } now
    | none => s2
  { s3 with stats := { s3.stats with totalLinks := s3.stats.totalLinks + 1 } }

/-- `deleteLink` in pkmStore.ts: silent no-op when the id matches no link;
otherwise remove the link, attempt the reciprocal metadata removals on both
endpoints via `updateNote` (discarded by the metadata rebuild), and
decrement `totalLinks` floored at 0. -/
def storeDeleteLink (s : PKMState) (id : String) (now : Int) : PKMState :=
  match s.links.find? (fun l => l.id == id) with
  | none => s
  | some link =>
    let s1 : PKMState := { s with links := s.links.filter fun l => l.id ≠ id }
    let sourceNote := s.notes.find? fun n => n.id == link.sourceId
    let targetNote := s.notes.find? fun n => n.id == link.targetId
    let s2 :=
      match sourceNote with
      | some sn =>
        storeUpdateNote s1 link.sourceId
          { metadata := some { sn.metadata with
              links := sn.metadata.links.filter fun l => l ≠ link.targetId } } now
      | none => s1
    let s3 :=
      match targetNote with
      | some tn =>
        storeUpdateNote s2 link.targetId
          { metadata := some { tn.metadata with
              backlinks := tn.metadata.backlinks.filter fun l => l ≠ link.sourceId } } now
      | none => s2
    { s3 with stats := { s3.stats with totalLinks := max 0 (s3.stats.totalLinks - 1) } }

/-- `createNote` in pkmStore.ts.  `newId` stands for the generated id and
`pos` for the randomised default position; `noteData.metadata` and
`noteData.reviewData` are never consulted by the source.  The stats update
(totalNotes + 1, capped activity prepend) follows `updateStats`. -/
def storeCreateNote (s : PKMState) (noteData : NoteUpdates) (newId : String)
    (pos : Position) (now : Int) : PKMState :=
  let content := noteData.content.getD ""
  let note : Note :=
    { id := newId
      title := jsOrStr noteData.title "Untitled Note"
      content := content
      type := noteData.type.getD NoteType.concept
      domain := jsOrStr noteData.domain s.settings.defaultDomain
      tags := noteData.tags.getD []
      createdAt := DateVal.date now
      updatedAt := DateVal.date now
      position := noteData.position.getD pos
      isCollected := noteData.isCollected.getD false
      reviewData :=
        { status := ReviewStatus.fresh
          easeFactor := SPACED_REPETITION.INITIAL_EASE
          interval := SPACED_REPETITION.INITIAL_INTERVAL
          nextReview := DateVal.date (now + SPACED_REPETITION.INITIAL_INTERVAL * 86400000)
          reviewCount := 0
          lastReviewed := none
          correctStreak := 0
          totalReviews := 0 }
      metadata :=
        { wordCount := countWords content
          readingTime := readingTimeOf content
          links := []
          backlinks := []
          attachments := []
          importance := 3 } }
  let activity : ActivityItem :=
    { id := "activity_" ++ toString now, type := "note_created",
      timestamp := DateVal.date now,
      description := "Created note: " ++ note.title, points := some 10 }
  { s with
    notes := s.notes ++ [note]
    stats := { s.stats with
      totalNotes := s.stats.totalNotes + 1
      recentActivity := activity :: s.stats.recentActivity.take 9 } }

/-- The scheduling core of `reviewNote` in pkmStore.ts: the `switch` on
quality computing `newEaseFactor`/`newInterval`, the status ternary on the
pre-increment `reviewCount`, and the rebuilt review-data record.  Products
are written in the source's operand order; `Math.floor` is rational floor.
In the `easy` arm the source multiplies by `reviewData.easeFactor` — the
old ease factor — even though `newEaseFactor` was just computed. -/
def reviewTransform (rd : ReviewData) (q : Quality) (now : Int) : ReviewData :=
  let p : Rat × Int :=
    match q with
    | Quality.again =>
      (max SPACED_REPETITION.MIN_EASE (rd.easeFactor * SPACED_REPETITION.AGAIN_MULTIPLIER),
       SPACED_REPETITION.INITIAL_INTERVAL)
    | Quality.hard =>
      (max SPACED_REPETITION.MIN_EASE (rd.easeFactor * SPACED_REPETITION.HARD_MULTIPLIER),
       max 1 (Int.floor ((rd.interval : Rat) * SPACED_REPETITION.HARD_MULTIPLIER)))
    | Quality.good =>
      (rd.easeFactor,
       max SPACED_REPETITION.GRADUATING_INTERVAL
         (Int.floor ((rd.interval : Rat) * SPACED_REPETITION.GOOD_MULTIPLIER * rd.easeFactor)))
    | Quality.easy =>
      (min SPACED_REPETITION.MAX_EASE (rd.easeFactor * SPACED_REPETITION.EASY_MULTIPLIER),
       Int.floor ((rd.interval : Rat) * SPACED_REPETITION.EASY_MULTIPLIER * rd.easeFactor))
  { status :=
      if q = Quality.again then ReviewStatus.learning
      else if 20 ≤ rd.reviewCount then ReviewStatus.mastered
      else ReviewStatus.reviewing
    easeFactor := p.1
    interval := p.2
    nextReview := DateVal.date (now + p.2 * 86400000)
    reviewCount := rd.reviewCount + 1
    lastReviewed := some (DateVal.date now)
    correctStreak := if q = Quality.again then 0 else rd.correctStreak + 1
    totalReviews := rd.totalReviews + 1 }

/-- Accuracy contribution of a quality grade (`reviewNote` stats update). -/
def qualityAccuracy : Quality → Rat
  | Quality.again => 0
  | Quality.hard => 0.5
  | Quality.good => 0.8
  | Quality.easy => 1.0

/-- Activity points of a quality grade (`reviewNote` stats update). -/
def qualityPoints : Quality → Nat
  | Quality.again => 2
  | Quality.hard => 5
  | Quality.good => 10
  | Quality.easy => 15

/-- `reviewNote` in pkmStore.ts: silent no-op when the id matches no note;
otherwise persist the transformed review data through `updateNote` and fold
the accuracy into the stats, prepending a capped activity entry. -/
def storeReviewNote (s : PKMState) (id : String) (q : Quality) (now : Int) : PKMState :=
  match s.notes.find? (fun n => n.id == id) with
  | none => s
  | some note =>
    let rd' := reviewTransform note.reviewData q now
    let s1 := storeUpdateNote s id { reviewData := some rd' } now
    let reviewedCount : Nat :=
      (s1.stats.recentActivity.filter fun a => a.type == "note_reviewed").length
    let activity : ActivityItem :=
      { id := "activity_" ++ toString now, type := "note_reviewed",
        timestamp := DateVal.date now,
        description := "Reviewed note: " ++ note.title,
        points := some (qualityPoints q) }
    { s1 with stats := { s1.stats with
        averageReviewAccuracy :=
          (s1.stats.averageReviewAccuracy * reviewedCount + qualityAccuracy q) /
            (reviewedCount + 1)
        recentActivity := activity :: s1.stats.recentActivity.take 9 } }

/-- Fold of `reviewNote` calls on one note: each element of `qs` is a
quality grade with the timestamp of that call. -/
def reviewSeq (s : PKMState) (id : String) (qs : List (Quality × Int)) : PKMState :=
  qs.foldl (fun st p => storeReviewNote st id p.1 p.2) s

/-- `chStarts needle hay`: `hay` starts with `needle` (character lists). -/
def chStarts : List Char → List Char → Bool
  | [], _ => true
  | _ :: _, [] => false
  | a :: as, b :: bs => a == b && chStarts as bs

/-- `chHas needle hay`: `needle` occurs contiguously in `hay`; the model of
JS `String.prototype.includes`. -/
def chHas (needle : List Char) : List Char → Bool
  | [] => needle.isEmpty
  | c :: rest => chStarts needle (c :: rest) || chHas needle rest

/-- The searchable text of a note in `pkmStorage.searchNotes`:
`` `${title} ${content} ${tags.join(' ')}`.toLowerCase() ``. -/
def searchableChars (n : Note) : List Char :=
  lowerChars (n.title ++ " " ++ n.content ++ " " ++ String.intercalate " " n.tags)

/-- The search terms of `pkmStorage.searchNotes`:
`query.toLowerCase().split(' ').filter(term => term.length > 0)` — the
split is on the space character `' '`, not on general whitespace. -/
def codeTerms (query : String) : List (List Char) :=
  (jsSplit (fun c => c == ' ') (lowerChars query)).filter fun t => t ≠ []

/-- `pkmStorage.searchNotes`: keep every note whose searchable text
contains every term (`searchableText.includes(term)`). -/
def storageSearchNotes (query : String) (notes : List Note) : List Note :=
  notes.filter fun n => (codeTerms query).all fun t => chHas t (searchableChars n)

/-- `searchNotes` in pkmStore.ts (the `searchResults` it stores): empty when
`query.trim()` is falsy, otherwise `pkmStorage.searchNotes(query)`. -/
def storeSearchNotes (query : String) (notes : List Note) : List Note :=
  if jsTrim query.toList = [] then [] else storageSearchNotes query notes

/-- The export/import snapshot document (§6 of the spec; `exportData` in
pkmStorage.ts).  Quests, rooms and settings travel through the same
verbatim `add`/`put` path and carry no claim, so they are omitted. -/
structure PKMDocument where
  version : String
  timestamp : String
  notes : List Note
  links : List NoteLink
  tags : List Tag
  stats : Option PKMStats
deriving DecidableEq, Repr

/-- Durable collections relevant to the snapshot round-trip. -/
structure StorageDB where
  notes : List Note
  links : List NoteLink
  tags : List Tag
  stats : Option PKMStats
deriving DecidableEq, Repr

/-- `Date.prototype.toJSON` produces the ISO-8601 rendering of the instant.
The claims never depend on the text of that rendering, only on the fact
that a `Date` becomes a string, so the rendering is abstracted to an
injective numeral encoding of the epoch value. -/
def isoEncode (ms : Int) : String :=
  "iso:" ++ toString ms

/-- Effect of `JSON.stringify` followed by `JSON.parse` on a date-valued
field: a `Date` object comes back as its ISO string; a string stays put. -/
def dateToJSON : DateVal → DateVal
  | DateVal.date ms => DateVal.str (isoEncode ms)
  | DateVal.str s => DateVal.str s

/-- JSON round-trip of a note: every other field type (strings, numbers,
booleans, string lists, nested records of those) is JSON-stable. -/
def noteToJSON (n : Note) : Note :=
  { n with
    createdAt := dateToJSON n.createdAt
    updatedAt := dateToJSON n.updatedAt
    reviewData := { n.reviewData with
      nextReview := dateToJSON n.reviewData.nextReview
      lastReviewed := n.reviewData.lastReviewed.map dateToJSON } }

/-- JSON round-trip of a link. -/
def linkToJSON (l : NoteLink) : NoteLink :=
  { l with createdAt := dateToJSON l.createdAt }

/-- JSON round-trip of a tag. -/
def tagToJSON (t : Tag) : Tag :=
  { t with createdAt := dateToJSON t.createdAt }

/-- JSON round-trip of the stats singleton (activity timestamps). -/
def statsToJSON (st : PKMStats) : PKMStats :=
  { st with recentActivity := st.recentActivity.map fun a =>
      { a with timestamp := dateToJSON a.timestamp } }

/-- `JSON.parse(await exportData())`: the document `exportData` builds from
the collections, as it looks after the stringify/parse round trip. -/
def exportThenParse (db : StorageDB) (now : Int) : PKMDocument :=
  { version := "1.0"
    timestamp := isoEncode now
    notes := db.notes.map noteToJSON
    links := db.links.map linkToJSON
    tags := db.tags.map tagToJSON
    stats := db.stats.map statsToJSON }

/-- IndexedDB `store.add` semantics inside `importData`: fails (promise
rejection) when the key already exists, otherwise appends. -/
def addAll {α : Type} (key : α → String) (xs : List α) : Option (List α) :=
  xs.foldlM (fun acc x => if acc.any fun y => key y == key x then none else some (acc ++ [x])) []

/-- `importData` in pkmStorage.ts: clear every collection, then `add` the
parsed notes, links and tags in order and `put` the stats singleton. -/
def importDoc (d : PKMDocument) : Option StorageDB := do
  let notes ← addAll Note.id d.notes
  let links ← addAll NoteLink.id d.links
  let tags ← addAll Tag.id d.tags
  pure { notes := notes, links := links, tags := tags, stats := d.stats }

/-- Ease factor written by one review as a function of the old ease factor
(the `newEaseFactor` assignments of `reviewNote`'s `switch`). -/
def easeStep (q : Quality) (e : Rat) : Rat :=
  match q with
  | Quality.again => max SPACED_REPETITION.MIN_EASE (e * SPACED_REPETITION.AGAIN_MULTIPLIER)
  | Quality.hard => max SPACED_REPETITION.MIN_EASE (e * SPACED_REPETITION.HARD_MULTIPLIER)
  | Quality.good => e
  | Quality.easy => min SPACED_REPETITION.MAX_EASE (e * SPACED_REPETITION.EASY_MULTIPLIER)

/-- Ease factor of the note with the given id, when present. -/
def easeOf? (s : PKMState) (id : String) : Option Rat :=
  (s.notes.find? fun n => n.id == id).map fun n => n.reviewData.easeFactor

/-- The claim's own tokenisation of a search query ("splitting the query on
whitespace, lower-casing, and discarding empty tokens"), kept verbatim for
comparison with the source's space-only `codeTerms`. -/
def claimTerms (query : String) : List (List Char) :=
  (jsSplit jsWhitespace (lowerChars query)).filter fun t => t ≠ []

/-- The search behaviour the claim describes, differing from the source's
`storeSearchNotes` only in tokenising on whitespace instead of the space
character. -/
def claimSearch (query : String) (notes : List Note) : List Note :=
  if jsTrim query.toList = [] then [] else
    notes.filter fun n => (claimTerms query).all fun t => chHas t (searchableChars n)

/- Concrete fixtures used by the closed evaluation theorems. -/

/-- Freshly created review data (the shape `createNote` writes). -/
def freshReview : ReviewData :=
  { status := ReviewStatus.fresh, easeFactor := 2.5, interval := 1,
    nextReview := DateVal.date 86400000, reviewCount := 0, lastReviewed := none,
    correctStreak := 0, totalReviews := 0 }

/-- Empty derived metadata (the shape `createNote` writes for empty content). -/
def emptyMeta : NoteMetadata :=
  { wordCount := 0, readingTime := 0, links := [], backlinks := [],
    attachments := [], importance := 3 }

/-- A minimal note with the given id. -/
def baseNote (id : String) : Note :=
  { id := id, title := "", content := "", type := NoteType.concept,
    domain := "personal", tags := [], createdAt := DateVal.date 0,
    updatedAt := DateVal.date 0, position := { x := 0, y := 0, room := "main_hall" },
    isCollected := false, reviewData := freshReview, metadata := emptyMeta }

/-- A store state over the given collections with default settings. -/
def mkState (notes : List Note) (links : List NoteLink) (stats : PKMStats) : PKMState :=
  { notes := notes, links := links, tags := [], stats := stats,
    settings := defaultSettings }

/-- A `related` link with default strength between two note ids. -/
def mkLink (id src tgt : String) : NoteLink :=
  { id := id, sourceId := src, targetId := tgt, type := LinkType.related,
    strength := 5, createdAt := DateVal.date 0, context := none }

/-- Review data with the default ease factor and a 10-day interval. -/
def rdC2ex : ReviewData := { freshReview with interval := 10 }

/-- Two fresh notes `A` and `B`, no links. -/
def sC1 : PKMState := mkState [baseNote "A", baseNote "B"] [] defaultStats

/-- Note `A` with an outgoing link to `B` and an incoming link from `C`;
the stats link counter matches the two live links. -/
def sC4 : PKMState :=
  mkState [baseNote "A", baseNote "B", baseNote "C"]
    [mkLink "L1" "A" "B", mkLink "L2" "C" "A"]
    { defaultStats with totalLinks := 2 }

/-- A note whose searchable text contains `foo` and `bar` separated by a
space. -/
def noteC6 : Note := { (baseNote "S") with title := "foo bar" }

/-- A one-note, one-link, one-tag database, every date a `Date` object. -/
def dbC5 : StorageDB :=
  { notes := [baseNote "D"], links := [mkLink "L" "D" "D"],
    tags := [{ id := "T", name := "topic", color := "#fff", description := none,
               noteCount := 0, createdAt := DateVal.date 0 }],
    stats := none }

/-- A single fresh note `R` with the initial ease factor 2.5. -/
def sC7 : PKMState := mkState [baseNote "R"] [] defaultStats

/-- A note with content `"a b"` and the matching derived word count. -/
def noteC8 : Note :=
  { (baseNote "W") with
    content := "a b"
    metadata := { emptyMeta with wordCount := 2, readingTime := 1 } }

/-- State holding only `noteC8`. -/
def sC8 : PKMState := mkState [noteC8] [] defaultStats

/-- An empty store whose stats still count one note. -/
def sC9 : PKMState := mkState [] [] { defaultStats with totalNotes := 1 }

/-- A single uncollected note `C`. -/
def sC10 : PKMState := mkState [baseNote "C"] [] defaultStats

/-- The note `C` already collected. -/
def noteC10b : Note := { (baseNote "C") with isCollected := true }

/-- State holding only the already-collected `noteC10b`. -/
def sC10b : PKMState := mkState [noteC10b] [] defaultStats

/- Helper lemmas. -/

/-- Replacing the elements a `find?` predicate selects by an element that
itself satisfies the predicate moves `find?` to the replacement. -/
lemma find?_map_ite {α : Type} (p : α → Bool) (b : α) (hb : p b = true) :
    ∀ (l : List α) (a : α), l.find? p = some a →
      (l.map fun x => if p x then b else x).find? p = some b := by
  intro l
  induction l with
  | nil => intro a h; simp at h
  | cons x xs ih =>
    intro a h
    by_cases hx : p x = true
    · simp only [List.map_cons]
      rw [if_pos hx, List.find?_cons_of_pos _ hb]
    · rw [List.find?_cons_of_neg _ hx] at h
      simp only [List.map_cons]
      rw [if_neg hx, List.find?_cons_of_neg _ hx]
      exact ih a h

/-- When no element satisfies the predicate, the replacement map is the
identity. -/
lemma map_ite_of_find?_none {α : Type} (p : α → Bool) (b : α) :
    ∀ l : List α, l.find? p = none → (l.map fun x => if p x then b else x) = l := by
  intro l
  induction l with
  | nil => intro _; rfl
  | cons x xs ih =>
    intro h
    rw [List.find?_eq_none] at h
    have hx : ¬ p x = true := h x (by simp)
    have hxs : xs.find? p = none := by
      rw [List.find?_eq_none]; exact fun a ha => h a (by simp [ha])
    simp [hx, ih hxs]

/-- `chStarts` decides the prefix relation on character lists. -/
lemma chStarts_iff (n : List Char) :
    ∀ h : List Char, chStarts n h = true ↔ ∃ r, h = n ++ r := by
  induction n with
  | nil =>
    intro h
    simp [chStarts]
  | cons a as ih =>
    intro h
    cases h with
    | nil => simp [chStarts]
    | cons b bs =>
      simp only [chStarts, Bool.and_eq_true, beq_iff_eq, ih bs, List.cons_append,
        List.cons.injEq]
      constructor
      · rintro ⟨rfl, r, rfl⟩; exact ⟨r, rfl, rfl⟩
      · rintro ⟨r, rfl, rfl⟩; exact ⟨rfl, r, rfl⟩

/-- `chHas` decides contiguous containment on character lists (the model of
JS `String.prototype.includes`). -/
lemma chHas_iff (n : List Char) :
    ∀ h : List Char, chHas n h = true ↔ ∃ p r, h = p ++ n ++ r := by
  intro h
  induction h with
  | nil =>
    simp only [chHas, List.isEmpty_iff]
    constructor
    · rintro rfl; exact ⟨[], [], rfl⟩
    · rintro ⟨p, r, hpr⟩
      rcases List.append_eq_nil.mp hpr.symm with ⟨h1, _⟩
      exact (List.append_eq_nil.mp h1).2
  | cons c rest ih =>
    simp only [chHas, Bool.or_eq_true, chStarts_iff, ih]
    constructor
    · rintro (⟨r, hr⟩ | ⟨p, r, hpr⟩)
      · exact ⟨[], r, by simpa using hr⟩
      · exact ⟨c :: p, r, by simp [hpr]⟩
    · rintro ⟨p, r, hpr⟩
      cases p with
      | nil => left; exact ⟨r, by simpa using hpr⟩
      | cons c' p' =>
        right
        simp only [List.cons_append] at hpr
        injection hpr with h1 h2
        exact ⟨p', r, h2⟩

/-- One review keeps the clamped ease factor inside `[MIN_EASE, MAX_EASE]`. -/
lemma easeStep_bounds (q : Quality) (e : Rat)
    (h1 : SPACED_REPETITION.MIN_EASE ≤ e) (h2 : e ≤ SPACED_REPETITION.MAX_EASE) :
    SPACED_REPETITION.MIN_EASE ≤ easeStep q e ∧
      easeStep q e ≤ SPACED_REPETITION.MAX_EASE := by
  simp only [SPACED_REPETITION.MIN_EASE, SPACED_REPETITION.MAX_EASE] at h1 h2
  cases q <;>
    simp only [easeStep, SPACED_REPETITION.MIN_EASE, SPACED_REPETITION.MAX_EASE,
      SPACED_REPETITION.AGAIN_MULTIPLIER, SPACED_REPETITION.HARD_MULTIPLIER,
      SPACED_REPETITION.EASY_MULTIPLIER]
  case again =>
    exact ⟨le_max_left _ _, max_le (by norm_num) (by nlinarith)⟩
  case hard =>
    exact ⟨le_max_left _ _, max_le (by norm_num) (by nlinarith)⟩
  case good => exact ⟨h1, h2⟩
  case easy =>
    exact ⟨le_min (by norm_num) (by nlinarith), min_le_left _ _⟩

/-- The ease factor written by `reviewNote`'s `switch` as a function of the
previous one. -/
lemma reviewTransform_easeFactor (rd : ReviewData) (q : Quality) (now : Int) :
    (reviewTransform rd q now).easeFactor = easeStep q rd.easeFactor := by
  cases q <;> rfl

/-- Effect of one `reviewNote` call on the tracked ease factor. -/
lemma easeOf?_storeReviewNote (s : PKMState) (id : String) (q : Quality) (now : Int) :
    easeOf? (storeReviewNote s id q now) id = (easeOf? s id).map (easeStep q) := by
  cases hf : s.notes.find? (fun n => n.id == id) with
  | none => simp [easeOf?, storeReviewNote, hf]
  | some note =>
    have hp : (note.id == id) = true := by
      have := List.find?_some hf
      simpa using this
    have hrepl := find?_map_ite (fun n => n.id == id)
      (applyUpdates note { reviewData := some (reviewTransform note.reviewData q now) } now)
      (by simpa [applyUpdates] using hp) s.notes note hf
    simp only [easeOf?, storeReviewNote, hf, storeUpdateNote]
    rw [hrepl]
    simp [applyUpdates, reviewTransform_easeFactor]

/-- Any finite sequence of reviews keeps the ease factor inside the clamp
interval, provided it starts inside it. -/
lemma reviewSeq_ease (id : String) :
    ∀ (qs : List (Quality × Int)) (s : PKMState) (e : Rat),
      easeOf? s id = some e →
      SPACED_REPETITION.MIN_EASE ≤ e → e ≤ SPACED_REPETITION.MAX_EASE →
      ∃ e', easeOf? (reviewSeq s id qs) id = some e' ∧
        SPACED_REPETITION.MIN_EASE ≤ e' ∧ e' ≤ SPACED_REPETITION.MAX_EASE := by
  intro qs
  induction qs with
  | nil =>
    intro s e h h1 h2
    exact ⟨e, by simpa [reviewSeq] using h, h1, h2⟩
  | cons p qs ih =>
    intro s e h h1 h2
    have hs : easeOf? (storeReviewNote s id p.1 p.2) id = some (easeStep p.1 e) := by
      rw [easeOf?_storeReviewNote, h]; rfl
    have hb := easeStep_bounds p.1 e h1 h2
    have hstep : reviewSeq s id (p :: qs) = reviewSeq (storeReviewNote s id p.1 p.2) id qs := rfl
    rw [hstep]
    exact ih _ _ hs hb.1 hb.2

/-- Inserting records with pairwise-distinct keys through the
duplicate-checking `add` succeeds and preserves the list. -/
lemma addAll_go {α : Type} (key : α → String) :
    ∀ (xs acc : List α), (xs.map key).Nodup →
      (∀ x ∈ xs, ∀ y ∈ acc, key y ≠ key x) →
      List.foldlM
        (fun acc x => if acc.any fun y => key y == key x then none else some (acc ++ [x]))
        acc xs = some (acc ++ xs) := by
  intro xs
  induction xs with
  | nil => intro acc _ _; simp [List.foldlM]
  | cons x xs ih =>
    intro acc hnd hdisj
    have hany : (acc.any fun y => key y == key x) = false := by
      rw [List.any_eq_false]
      intro y hy
      simpa using hdisj x (by simp) y hy
    rw [List.map_cons, List.nodup_cons] at hnd
    have hdisj' : ∀ x' ∈ xs, ∀ y ∈ acc ++ [x], key y ≠ key x' := by
      intro x' hx' y hy
      rcases List.mem_append.mp hy with hy | hy
      · exact hdisj x' (by simp [hx']) y hy
      · have : y = x := by simpa using hy
        subst this
        intro hk
        exact hnd.1 (hk ▸ List.mem_map_of_mem key hx')
    have := ih (acc ++ [x]) hnd.2 hdisj'
    simpa [List.foldlM, hany, List.append_assoc] using this

/-- `addAll` leaves a collection whose keys are distinct untouched. -/
lemma addAll_eq_some {α : Type} (key : α → String) (xs : List α)
    (h : (xs.map key).Nodup) : addAll key xs = some xs := by
  have := addAll_go key xs [] h (by intro x _ y hy; simp at hy)
  simpa [addAll] using this

/-- `collectNote` is a no-op when the id matches no note. -/
lemma collectNote_noop_of_none (s : PKMState) (id : String)
    (h : s.notes.find? (fun n => n.id == id) = none) : storeCollectNote s id = s := by
  simp [storeCollectNote, h]

/-- `collectNote` is a no-op when the found note is already collected. -/
lemma collectNote_noop_of_collected (s : PKMState) (id : String) (note : Note)
    (h : s.notes.find? (fun n => n.id == id) = some note)
    (hcol : note.isCollected = true) : storeCollectNote s id = s := by
  simp [storeCollectNote, h, hcol]

/- Claim theorems. -/

/-- C1: the claim states that after `createLink(A, B, type)` the source
note's `metadata.links` contains `B` and the target's `metadata.backlinks`
contains `A`.  Evaluating the source on two fresh notes shows the link
record is created and the counter incremented, yet both metadata lists stay
empty: `updateNote` rebuilds `metadata` from the old note after spreading
the updates, so the `metadata` updates `createLink` passes are discarded —
a code bug against the claim (and against `deleteLink`'s reciprocal
removals, which are discarded the same way). -/
theorem claim_C1_bug_eval :
    ((storeCreateLink sC1 "A" "B" LinkType.related none "L1" 0).notes.map
      fun n => (n.id, n.metadata.links, n.metadata.backlinks)) =
        [("A", [], []), ("B", [], [])] ∧
    (storeCreateLink sC1 "A" "B" LinkType.related none "L1" 0).links =
      [mkLink "L1" "A" "B"] ∧
    (storeCreateLink sC1 "A" "B" LinkType.related none "L1" 0).stats.totalLinks = 1 :=
  ⟨rfl, rfl, rfl⟩

/-- C2 (counterexample): for ease factor 2.5 and interval 10, quality
`easy` stores interval `floor(10 × 1.3 × 2.5) = 32`, not the claimed
`floor(10 × 1.3 × ease') = floor(10 × 1.3 × 3.0) = 39` computed from the
updated ease factor. -/
theorem claim_C2_counterexample :
    (reviewTransform rdC2ex Quality.easy 0).interval = 32 ∧
    Int.floor ((rdC2ex.interval : Rat) * SPACED_REPETITION.EASY_MULTIPLIER *
        (reviewTransform rdC2ex Quality.easy 0).easeFactor) = 39 ∧
    (reviewTransform rdC2ex Quality.easy 0).interval ≠
      Int.floor ((rdC2ex.interval : Rat) * SPACED_REPETITION.EASY_MULTIPLIER *
        (reviewTransform rdC2ex Quality.easy 0).easeFactor) := by
  have h1 : (reviewTransform rdC2ex Quality.easy 0).interval = 32 := by
    show Int.floor ((rdC2ex.interval : Rat) * SPACED_REPETITION.EASY_MULTIPLIER *
      rdC2ex.easeFactor) = 32
    norm_num [rdC2ex, freshReview, SPACED_REPETITION.EASY_MULTIPLIER, Int.floor_eq_iff]
  have he : (reviewTransform rdC2ex Quality.easy 0).easeFactor = 3 := by
    show min SPACED_REPETITION.MAX_EASE
      (rdC2ex.easeFactor * SPACED_REPETITION.EASY_MULTIPLIER) = 3
    norm_num [rdC2ex, freshReview, SPACED_REPETITION.MAX_EASE,
      SPACED_REPETITION.EASY_MULTIPLIER]
  have h2 : Int.floor ((rdC2ex.interval : Rat) * SPACED_REPETITION.EASY_MULTIPLIER *
      (reviewTransform rdC2ex Quality.easy 0).easeFactor) = 39 := by
    rw [he]
    norm_num [rdC2ex, freshReview, SPACED_REPETITION.EASY_MULTIPLIER, Int.floor_eq_iff]
  exact ⟨h1, h2, by rw [h1, h2]; decide⟩

/-- C2 (amended): on quality `easy` the new ease factor is
`min(MAX_EASE, ease × EASY)`, but the new interval is
`floor(interval × EASY × ease)` computed from the **old** (pre-update)
ease factor, not from the clamped new one. -/
theorem claim_C2_amended (rd : ReviewData) (now : Int) :
    (reviewTransform rd Quality.easy now).easeFactor =
      min SPACED_REPETITION.MAX_EASE (rd.easeFactor * SPACED_REPETITION.EASY_MULTIPLIER) ∧
    (reviewTransform rd Quality.easy now).interval =
      Int.floor ((rd.interval : Rat) * SPACED_REPETITION.EASY_MULTIPLIER * rd.easeFactor) :=
  ⟨rfl, rfl⟩

/-- C3: the post-review status is `learning` exactly on quality `again`;
otherwise it is `mastered` exactly when the pre-increment review count is
at least 20 (equivalently, when the post-increment count is at least 21 —
the 21st successful review), and `reviewing` otherwise; the review count
increments unconditionally. -/
theorem claim_C3 (rd : ReviewData) (q : Quality) (now : Int) :
    ((reviewTransform rd q now).status = ReviewStatus.learning ↔ q = Quality.again) ∧
    ((reviewTransform rd q now).status = ReviewStatus.mastered ↔
      q ≠ Quality.again ∧ 20 ≤ rd.reviewCount) ∧
    ((reviewTransform rd q now).status = ReviewStatus.reviewing ↔
      q ≠ Quality.again ∧ rd.reviewCount < 20) ∧
    (reviewTransform rd q now).reviewCount = rd.reviewCount + 1 := by
  have hst : (reviewTransform rd q now).status =
      (if q = Quality.again then ReviewStatus.learning
       else if 20 ≤ rd.reviewCount then ReviewStatus.mastered
       else ReviewStatus.reviewing) := rfl
  have hcnt : (reviewTransform rd q now).reviewCount = rd.reviewCount + 1 := rfl
  by_cases hq : q = Quality.again
  · subst hq
    simp [hst, hcnt]
  · by_cases hc : 20 ≤ rd.reviewCount
    · simp [hst, hcnt, hq, hc, not_lt.mpr hc]
    · simp [hst, hcnt, hq, hc, Nat.lt_of_not_le hc]

/-- C4: deleting note `A` does remove every link touching `A` in either
direction from the link collection (both the outgoing `L1 : A → B` and the
incoming `L2 : C → A`, at the store layer and at the two-index storage
layer alike), but the claim's second half fails: `deleteNote` never touches
`totalLinks`, which stays at 2 instead of dropping to 0 — a code bug
against the claim. -/
theorem claim_C4_bug_eval :
    (storeDeleteNote sC4 "A").links = [] ∧
    (storeDeleteNote sC4 "A").notes.map Note.id = ["B", "C"] ∧
    storageDeleteNoteLinks sC4.links "A" = [] ∧
    (storeDeleteNote sC4 "A").stats.totalLinks = 2 :=
  ⟨rfl, rfl, rfl, rfl⟩

/-- C5 (counterexample): importing the export of a store whose records hold
`Date` objects does not restore identical field values: `JSON.parse` leaves
every date as its ISO string, so the restored note's `createdAt` is a
string where the original held a `Date`. -/
theorem claim_C5_counterexample :
    importDoc (exportThenParse dbC5 7) ≠ some dbC5 ∧
    ((importDoc (exportThenParse dbC5 7)).map fun db => db.notes.map Note.createdAt) =
      some [DateVal.str (isoEncode 0)] ∧
    dbC5.notes.map Note.createdAt = [DateVal.date 0] := by
  refine ⟨?_, rfl, rfl⟩
  intro h
  have h1 : ((importDoc (exportThenParse dbC5 7)).map
      fun db => db.notes.map Note.createdAt) = some [DateVal.str (isoEncode 0)] := rfl
  rw [h] at h1
  have h2 : ((some dbC5).map fun db => db.notes.map Note.createdAt) =
      some [DateVal.date 0] := rfl
  rw [h2] at h1
  simp at h1

/-- C5 (amended): importing the result of `export()` into a freshly cleared
store restores the same note/link/tag sets with the same ids and the same
value for every field, **except** that every `Date`-valued field
(`createdAt`, `updatedAt`, `nextReview`, `lastReviewed`) is restored as its
JSON string serialisation rather than a `Date` object; the id-uniqueness
hypotheses are the store's key invariant. -/
theorem claim_C5_amended (db : StorageDB) (now : Int)
    (hn : (db.notes.map Note.id).Nodup) (hl : (db.links.map NoteLink.id).Nodup)
    (ht : (db.tags.map Tag.id).Nodup) :
    importDoc (exportThenParse db now) =
      some { notes := db.notes.map noteToJSON, links := db.links.map linkToJSON,
             tags := db.tags.map tagToJSON, stats := db.stats.map statsToJSON } ∧
    (∀ n : Note, (noteToJSON n).id = n.id ∧ (noteToJSON n).title = n.title ∧
      (noteToJSON n).content = n.content ∧ (noteToJSON n).type = n.type ∧
      (noteToJSON n).domain = n.domain ∧ (noteToJSON n).tags = n.tags ∧
      (noteToJSON n).position = n.position ∧ (noteToJSON n).isCollected = n.isCollected ∧
      (noteToJSON n).metadata = n.metadata ∧
      (noteToJSON n).createdAt = dateToJSON n.createdAt) ∧
    (∀ l : NoteLink, (linkToJSON l).id = l.id ∧ (linkToJSON l).sourceId = l.sourceId ∧
      (linkToJSON l).targetId = l.targetId ∧ (linkToJSON l).type = l.type ∧
      (linkToJSON l).strength = l.strength ∧ (linkToJSON l).context = l.context) ∧
    (∀ t : Tag, (tagToJSON t).id = t.id ∧ (tagToJSON t).name = t.name ∧
      (tagToJSON t).color = t.color ∧ (tagToJSON t).description = t.description ∧
      (tagToJSON t).noteCount = t.noteCount) := by
  refine ⟨?_, fun n => ⟨rfl, rfl, rfl, rfl, rfl, rfl, rfl, rfl, rfl, rfl⟩,
    fun l => ⟨rfl, rfl, rfl, rfl, rfl, rfl⟩, fun t => ⟨rfl, rfl, rfl, rfl, rfl⟩⟩
  have hcn : Note.id ∘ noteToJSON = Note.id := funext fun n => rfl
  have hcl : NoteLink.id ∘ linkToJSON = NoteLink.id := funext fun l => rfl
  have hct : Tag.id ∘ tagToJSON = Tag.id := funext fun t => rfl
  have hn' : ((db.notes.map noteToJSON).map Note.id).Nodup := by
    rw [List.map_map, hcn]; exact hn
  have hl' : ((db.links.map linkToJSON).map NoteLink.id).Nodup := by
    rw [List.map_map, hcl]; exact hl
  have ht' : ((db.tags.map tagToJSON).map Tag.id).Nodup := by
    rw [List.map_map, hct]; exact ht
  simp [importDoc, exportThenParse, addAll_eq_some _ _ hn', addAll_eq_some _ _ hl',
    addAll_eq_some _ _ ht']

/-- C5 (amended, witness): the amended round-trip at the concrete one-note,
one-link, one-tag database. -/
theorem claim_C5_amended_witness :
    importDoc (exportThenParse dbC5 7) =
      some { notes := dbC5.notes.map noteToJSON, links := dbC5.links.map linkToJSON,
             tags := dbC5.tags.map tagToJSON, stats := dbC5.stats.map statsToJSON } :=
  (claim_C5_amended dbC5 7 (by decide) (by decide) (by decide)).1

/-- C6 (counterexample): the query `"foo\tbar"` tokenises to
`["foo", "bar"]` under the claim's whitespace splitting, and the note whose
searchable text is `"foo bar  "` contains both terms, so the claim predicts
it is returned — but the source splits on the space character only, keeps
the single term `"foo\tbar"`, and returns nothing. -/
theorem claim_C6_counterexample :
    storeSearchNotes "foo\tbar" [noteC6] = [] ∧
    claimSearch "foo\tbar" [noteC6] = [noteC6] :=
  ⟨rfl, rfl⟩

/-- C6 (amended): `search(query)` is empty when the query trims to nothing;
otherwise, with terms obtained by lower-casing and splitting the query on
the **space character** (not general whitespace) and discarding empty
tokens, it returns exactly the notes whose lower-cased
`title content tags` concatenation contains every term as a contiguous
substring. -/
theorem claim_C6_amended (query : String) (notes : List Note) (n : Note) :
    n ∈ storeSearchNotes query notes ↔
      jsTrim query.toList ≠ [] ∧ n ∈ notes ∧
        ∀ t ∈ codeTerms query, ∃ p r, searchableChars n = p ++ t ++ r := by
  unfold storeSearchNotes
  by_cases h : jsTrim query.toList = []
  · rw [if_pos h]
    constructor
    · intro hn; exact absurd hn (List.not_mem_nil n)
    · rintro ⟨hne, -⟩; exact absurd h hne
  · rw [if_neg h]
    simp only [storageSearchNotes, List.mem_filter, List.all_eq_true, chHas_iff, h,
      ne_eq, not_false_eq_true, true_and]

/-- C7: starting from the initial ease factor 2.5, any finite sequence of
`reviewNote` calls with arbitrary qualities (and arbitrary call times)
leaves the note's ease factor inside the closed interval
`[MIN_EASE, MAX_EASE] = [1.3, 3.0]`. -/
theorem claim_C7 (s : PKMState) (id : String) (qs : List (Quality × Int)) (e' : Rat)
    (h0 : easeOf? s id = some SPACED_REPETITION.INITIAL_EASE)
    (h1 : easeOf? (reviewSeq s id qs) id = some e') :
    SPACED_REPETITION.MIN_EASE ≤ e' ∧ e' ≤ SPACED_REPETITION.MAX_EASE := by
  have ha : SPACED_REPETITION.MIN_EASE ≤ SPACED_REPETITION.INITIAL_EASE := by
    norm_num [SPACED_REPETITION.MIN_EASE, SPACED_REPETITION.INITIAL_EASE]
  have hb : SPACED_REPETITION.INITIAL_EASE ≤ SPACED_REPETITION.MAX_EASE := by
    norm_num [SPACED_REPETITION.INITIAL_EASE, SPACED_REPETITION.MAX_EASE]
  obtain ⟨e'', he'', hb1, hb2⟩ := reviewSeq_ease id qs s _ h0 ha hb
  rw [h1] at he''
  injection he'' with heq
  subst heq
  exact ⟨hb1, hb2⟩

/-- C7 (witness): two `good` reviews of the fresh note `R` leave its ease
factor at 2.5, inside the clamp interval. -/
theorem claim_C7_witness :
    SPACED_REPETITION.MIN_EASE ≤ (2.5 : Rat) ∧
      (2.5 : Rat) ≤ SPACED_REPETITION.MAX_EASE :=
  claim_C7 sC7 "R" [(Quality.good, 0), (Quality.good, 1)] 2.5 rfl rfl

/-- C8: the claim requires the word count to be recomputed on every content
update, including an update to the empty string.  Evaluating the source on
a note with content `"a b"` (word count 2): updating content to `""` stores
the empty content but keeps the stale word count 2, because
`updates.content ? ... : ...` is a JS truthiness test and the empty string
is falsy — the count should be `countWords "" = 0`.  A code bug against the
claim (and against the word-count invariant `createNote` establishes). -/
theorem claim_C8_bug_eval :
    (((storeUpdateNote sC8 "W" { content := some "" } 5).notes.find?
        fun n => n.id == "W").map fun n => (n.content, n.metadata.wordCount)) =
      some ("", 2) ∧
    countWords "" = 0 ∧
    countWords "a b" = 2 :=
  ⟨rfl, rfl, rfl⟩

/-- C9 (counterexample): deleting a nonexistent id is not a no-op — on a
store with `totalNotes = 1` and no notes at all, `deleteNote("ghost")`
still decrements the stats counter to 0. -/
theorem claim_C9_counterexample :
    storeDeleteNote sC9 "ghost" ≠ sC9 ∧
    (storeDeleteNote sC9 "ghost").stats.totalNotes = 0 ∧
    sC9.stats.totalNotes = 1 := by
  refine ⟨?_, rfl, rfl⟩
  intro h
  have h1 : (storeDeleteNote sC9 "ghost").stats.totalNotes = 0 := rfl
  rw [h] at h1
  exact absurd h1 (by decide)

/-- C9 (amended): for an id matching no stored entity, `updateNote`,
`updateTag` and `deleteLink` are silent no-ops leaving the entire state
unchanged and raising no error; `deleteNote`, however, performs no
existence check: it leaves every collection unchanged (given that no link
touches the id) but still decrements `Stats.totalNotes` by one, floored at
zero. -/
theorem claim_C9_amended (s : PKMState) (id : String) (u : NoteUpdates)
    (tu : TagUpdates) (now : Int)
    (hnote : s.notes.find? (fun n => n.id == id) = none)
    (htag : s.tags.find? (fun t => t.id == id) = none)
    (hlink : s.links.find? (fun l => l.id == id) = none)
    (hend : ∀ l ∈ s.links, l.sourceId ≠ id ∧ l.targetId ≠ id) :
    storeUpdateNote s id u now = s ∧
    storeUpdateTag s id tu = s ∧
    storeDeleteLink s id now = s ∧
    storeDeleteNote s id =
      { s with stats := { s.stats with totalNotes := max 0 (s.stats.totalNotes - 1) } } := by
  refine ⟨?_, ?_, ?_, ?_⟩
  · simp [storeUpdateNote, hnote]
  · simp [storeUpdateTag, htag]
  · simp [storeDeleteLink, hlink]
  · simp only [storeDeleteNote]
    simp [List.filter_eq_self]
    exact ⟨fun n hn => by simpa using List.find?_eq_none.mp hnote n hn,
      fun l hl => hend l hl⟩

/-- C9 (amended, witness): the amended behaviour at the concrete empty
store whose stats count one note. -/
theorem claim_C9_amended_witness :
    storeUpdateNote sC9 "ghost" {} 0 = sC9 ∧
    storeDeleteNote sC9 "ghost" =
      { sC9 with stats := { sC9.stats with totalNotes := max 0 (sC9.stats.totalNotes - 1) } } := by
  have h := claim_C9_amended sC9 "ghost" {} {} 0 rfl rfl rfl
    (by intro l hl; simp [sC9, mkState] at hl)
  exact ⟨h.1, h.2.2.2⟩

/-- C10: `collectNote` is idempotent and awards its stats exactly once: it
is a no-op when the id matches no note or the note is already collected,
and running it twice equals running it once. -/
theorem claim_C10 (s : PKMState) (id : String) :
    (s.notes.find? (fun n => n.id == id) = none → storeCollectNote s id = s) ∧
    (∀ note, s.notes.find? (fun n => n.id == id) = some note →
      note.isCollected = true → storeCollectNote s id = s) ∧
    storeCollectNote (storeCollectNote s id) id = storeCollectNote s id := by
  refine ⟨?_, ?_, ?_⟩
  · intro h; exact collectNote_noop_of_none s id h
  · intro note h hcol; exact collectNote_noop_of_collected s id note h hcol
  · cases hf : s.notes.find? (fun n => n.id == id) with
    | none => rw [collectNote_noop_of_none s id hf, collectNote_noop_of_none s id hf]
    | some note =>
      by_cases hcol : note.isCollected
      · rw [collectNote_noop_of_collected s id note hf hcol,
          collectNote_noop_of_collected s id note hf hcol]
      · have hp : (note.id == id) = true := by
          simpa using List.find?_some hf
        have hrepl := find?_map_ite (fun n => n.id == id)
          { note with isCollected := true } (by simpa using hp) s.notes note hf
        have h1 : storeCollectNote s id =
            { s with
              notes := s.notes.map fun n =>
                if n.id == id then { note with isCollected := true } else n
              stats := { s.stats with
                collectedNotes := s.stats.collectedNotes + 1
                wisdomPoints := s.stats.wisdomPoints + 5 } } := by
          simp [storeCollectNote, hf, hcol]
        rw [h1]
        exact collectNote_noop_of_collected _ id { note with isCollected := true }
          hrepl rfl

/-- C10 (witness): collecting the fresh note `C` twice equals collecting it
once, and collecting the already-collected note is a no-op. -/
theorem claim_C10_witness :
    storeCollectNote (storeCollectNote sC10 "C") "C" = storeCollectNote sC10 "C" ∧
    storeCollectNote sC10b "C" = sC10b :=
  ⟨(claim_C10 sC10 "C").2.2, (claim_C10 sC10b "C").2.1 noteC10b rfl rfl⟩

end PKM




